import Mathlib

/-!
Verification of the FatSecret adapter
(`functions/src/utils/fatSecretAPI.js` and the exposed callable handlers).

The JavaScript is shallowly embedded:

* `JSValue` models the dynamic JS values occurring in the module.  Arrays
  and objects are encoded as cons chains inside the single inductive so
  that equality and all operations are kernel-computable.  JS numbers are
  modelled as exact fractions `JNum` (an unnormalized `Int` pair with
  positive denominator) plus a separate `jnan` constructor for `NaN`;
  floating-point rounding never matters for the properties below.
* Effects are explicit: every stateful function takes and returns a state
  `St` (the TTL cache plus logs of cache lookups and outbound HTTP
  requests) and a read-only `World` (environment variables and the
  response each upstream endpoint would give).  A thrown JS exception is
  an `Except.error`; `try via catch` blocks are compiled to matches on it.
* `Date.now()` is the millisecond timestamp `now` passed to each call.

Simplifications that are irrelevant to the claims, noted where used:
string-to-number coercion ignores hex literals and `Infinity`; number
rendering is exact only for integers (all rendered numbers in the claims
are integers); `ToNumber` of arrays and objects is `NaN`.
-/

/-- JS numbers as exact unnormalized fractions (denominator kept positive
by construction).  Kept unnormalized so that all arithmetic is plain
`Int` arithmetic and reduces in the kernel. -/
structure JNum where
  num : Int
  den : Int
deriving DecidableEq

def JNum.ofInt (n : Int) : JNum := ⟨n, 1⟩

def JNum.add (a b : JNum) : JNum := ⟨a.num * b.den + b.num * a.den, a.den * b.den⟩

def JNum.sub (a b : JNum) : JNum := ⟨a.num * b.den - b.num * a.den, a.den * b.den⟩

def JNum.mul (a b : JNum) : JNum := ⟨a.num * b.num, a.den * b.den⟩

/-- Value comparison `a < b` (valid for positive denominators, which is an
invariant of every `JNum` built here). -/
def JNum.lt (a b : JNum) : Bool := a.num * b.den < b.num * a.den

/-- Value comparison `a ≤ b` (positive denominators). -/
def JNum.le (a b : JNum) : Bool := a.num * b.den ≤ b.num * a.den

/-- Value equality (positive denominators). -/
def JNum.eqv (a b : JNum) : Bool := a.num * b.den = b.num * a.den

def JNum.isZero (a : JNum) : Bool := a.num = 0

def JNum.minv (a b : JNum) : JNum := if JNum.lt a b then a else b

/-- Dynamic JS values.  Arrays and objects are cons chains inside the one
inductive (instead of nested `List` fields) so that `DecidableEq` derives
and all recursion is structural. -/
inductive JSValue where
  | jundef
  | jnull
  | jbool (b : Bool)
  | jnum (q : JNum)
  | jnan
  | jstr (s : String)
  | jarrNil
  | jarrCons (hd tl : JSValue)
  | jobjNil
  | jobjCons (key : String) (val tl : JSValue)
deriving DecidableEq

open JSValue

/-- Build an array value from a Lean list. -/
def arrOf : List JSValue → JSValue
  | [] => jarrNil
  | x :: r => jarrCons x (arrOf r)

/-- Build an object value from an association list (JS insertion order). -/
def objOf : List (String × JSValue) → JSValue
  | [] => jobjNil
  | (k, v) :: r => jobjCons k v (objOf r)

/-- The element list of an array value (empty for non-arrays). -/
def elemsOf : JSValue → List JSValue
  | jarrCons h t => h :: elemsOf t
  | _ => []

def arrLen : JSValue → Nat
  | jarrCons _ t => arrLen t + 1
  | _ => 0

/-- `v[i]` for an array value; `undefined` out of range or on non-arrays. -/
def arrGet : JSValue → Nat → JSValue
  | jarrCons h _, 0 => h
  | jarrCons _ t, n + 1 => arrGet t n
  | _, _ => jundef

/-- First binding of `k` in an object chain. -/
def lookupObj : JSValue → String → Option JSValue
  | jobjCons k v tl, key => if k = key then some v else lookupObj tl key
  | _, _ => none

def objKeys : JSValue → List String
  | jobjCons k _ tl => k :: objKeys tl
  | _ => []

def objHasKey (v : JSValue) (k : String) : Bool := (lookupObj v k).isSome

/-- JS truthiness. -/
def truthy : JSValue → Bool
  | jundef => false
  | jnull => false
  | jbool b => b
  | jnum q => !q.isZero
  | jnan => false
  | jstr s => s ≠ ""
  | jarrNil => true
  | jarrCons _ _ => true
  | jobjNil => true
  | jobjCons _ _ _ => true

/-- `a || b`. -/
def jsOr (a b : JSValue) : JSValue := if truthy a then a else b

def isArray : JSValue → Bool
  | jarrNil => true
  | jarrCons _ _ => true
  | _ => false

/-- The JS exceptions this module can throw. -/
inductive JsError where
  | typeError
  | jsError (msg : String)
  | httpsError (code : String) (msg : String) (details : JSValue)
  | networkError
deriving DecidableEq

/-- `error.message` of a thrown value (runtime texts of `TypeError` and of
a rejected fetch are modelled by fixed placeholder strings). -/
def errMessage : JsError → String
  | .typeError => "TypeError"
  | .jsError m => m
  | .httpsError _ m _ => m
  | .networkError => "network error"

/-- Property read `v.k`: throws `TypeError` on `null`/`undefined`, looks
up object fields, exposes `length` of arrays and strings, and yields
`undefined` on other primitives. -/
def getField : JSValue → String → Except JsError JSValue
  | jundef, _ => .error .typeError
  | jnull, _ => .error .typeError
  | jstr s, k => .ok (if k = "length" then jnum (JNum.ofInt s.data.length) else jundef)
  | jarrNil, k => .ok (if k = "length" then jnum (JNum.ofInt 0) else jundef)
  | jarrCons h t, k =>
      .ok (if k = "length" then jnum (JNum.ofInt (arrLen (jarrCons h t))) else jundef)
  | jobjNil, _ => .ok jundef
  | jobjCons k' v tl, k => .ok ((lookupObj (jobjCons k' v tl) k).getD jundef)
  | _, _ => .ok jundef

/-- Property read with the `TypeError` case collapsed to `undefined`; used
only where the receiver is known not to be `null`/`undefined`. -/
def getFieldD (v : JSValue) (k : String) : JSValue :=
  match getField v k with
  | .ok x => x
  | .error _ => jundef

/-- `{...v, [k]: x}` followed by nothing else: spread `v` and set `k`
(replacing in place when present, appending otherwise).  Spreading a
non-object contributes no fields (enumerable own properties of the
primitives used here). -/
def objSetField : JSValue → String → JSValue → JSValue
  | jobjCons k' v' tl, k, x =>
      if k' = k then jobjCons k x tl else jobjCons k' v' (objSetField tl k x)
  | _, k, x => jobjCons k x jobjNil

def objSpreadSet (v : JSValue) (k : String) (x : JSValue) : JSValue :=
  match v with
  | jobjCons k' v' tl => objSetField (jobjCons k' v' tl) k x
  | jobjNil => objSetField jobjNil k x
  | _ => jobjCons k x jobjNil

/-- ASCII lower-casing of one character (the inputs of interest are
ASCII; JS `toLowerCase` agrees on them). -/
def charLower (c : Char) : Char :=
  if c = 'A' then 'a' else if c = 'B' then 'b' else if c = 'C' then 'c' else
  if c = 'D' then 'd' else if c = 'E' then 'e' else if c = 'F' then 'f' else
  if c = 'G' then 'g' else if c = 'H' then 'h' else if c = 'I' then 'i' else
  if c = 'J' then 'j' else if c = 'K' then 'k' else if c = 'L' then 'l' else
  if c = 'M' then 'm' else if c = 'N' then 'n' else if c = 'O' then 'o' else
  if c = 'P' then 'p' else if c = 'Q' then 'q' else if c = 'R' then 'r' else
  if c = 'S' then 's' else if c = 'T' then 't' else if c = 'U' then 'u' else
  if c = 'V' then 'v' else if c = 'W' then 'w' else if c = 'X' then 'x' else
  if c = 'Y' then 'y' else if c = 'Z' then 'z' else c

def lowerStr (s : String) : String := ⟨s.data.map charLower⟩

def isWsChar (c : Char) : Bool := c = ' ' ∨ c = '\t' ∨ c = '\n' ∨ c = '\r'

/-- JS `String.prototype.trim` (over the whitespace characters relevant
here). -/
def trimStr (s : String) : String :=
  ⟨((s.data.dropWhile isWsChar).reverse.dropWhile isWsChar).reverse⟩

def isDigitChar (c : Char) : Bool := '0' ≤ c ∧ c ≤ '9'

def digitVal (c : Char) : Nat := c.toNat - 48

def takeDigits : List Char → List Char × List Char
  | [] => ([], [])
  | c :: r =>
      if isDigitChar c then
        let p := takeDigits r
        (c :: p.1, p.2)
      else ([], c :: r)

def digitsToNat : List Char → Nat
  | [] => 0
  | c :: r => digitsToNatAux (digitVal c) r
where digitsToNatAux (acc : Nat) : List Char → Nat
  | [] => acc
  | c :: r => digitsToNatAux (acc * 10 + digitVal c) r

def pow10 : Nat → Int
  | 0 => 1
  | k + 1 => 10 * pow10 k

def applyExp (m : JNum) (epos : Bool) (e : Nat) : JNum :=
  if epos then ⟨m.num * pow10 e, m.den⟩ else ⟨m.num, m.den * pow10 e⟩

/-- Longest-prefix decimal literal parse: optional sign, digits, optional
fraction, optional exponent.  Returns the value and the unconsumed rest.
(`Infinity` and the `0x` forms are not modelled; no claim depends on
them.) -/
def parseNumChars (cs : List Char) : Option (JNum × List Char) :=
  let sp : Bool × List Char :=
    match cs with
    | '-' :: r => (true, r)
    | '+' :: r => (false, r)
    | _ => (false, cs)
  let ip := takeDigits sp.2
  let fp : List Char × List Char :=
    match ip.2 with
    | '.' :: r => takeDigits r
    | _ => ([], ip.2)
  if ip.1.isEmpty ∧ fp.1.isEmpty then none
  else
    let mant : JNum :=
      ⟨(digitsToNat ip.1 : Int) * pow10 fp.1.length + (digitsToNat fp.1 : Int),
       pow10 fp.1.length⟩
    let ep : JNum × List Char :=
      match fp.2 with
      | c :: r =>
          if c = 'e' ∨ c = 'E' then
            let es : Bool × List Char :=
              match r with
              | '+' :: t => (true, t)
              | '-' :: t => (false, t)
              | _ => (true, r)
            let eds := takeDigits es.2
            if eds.1.isEmpty then (mant, fp.2)
            else (applyExp mant es.1 (digitsToNat eds.1), eds.2)
          else (mant, fp.2)
      | [] => (mant, [])
    some (if sp.1 then ⟨-ep.1.num, ep.1.den⟩ else ep.1, ep.2)

def natDigit (n : Nat) : Char :=
  if n = 0 then '0' else if n = 1 then '1' else if n = 2 then '2' else
  if n = 3 then '3' else if n = 4 then '4' else if n = 5 then '5' else
  if n = 6 then '6' else if n = 7 then '7' else if n = 8 then '8' else '9'

def natToChars : Nat → Nat → List Char
  | 0, _ => []
  | fuel + 1, n =>
      if n < 10 then [natDigit n]
      else natToChars fuel (n / 10) ++ [natDigit (n % 10)]

def natToStr (n : Nat) : String := ⟨natToChars (n + 1) n⟩

def intToStr (i : Int) : String :=
  match i with
  | .ofNat n => natToStr n
  | .negSucc n => "-" ++ natToStr (n + 1)

/-- Number rendering; exact for integers (every number this module
renders in a claim is an integer). -/
def jnumToStr (q : JNum) : String :=
  if q.den = 1 then intToStr q.num else intToStr q.num ++ "/" ++ intToStr q.den

/-- JS `ToString` as used in template literals and `URLSearchParams`
(array join shown element-wise; objects as their tag). -/
def jsToStr : JSValue → String
  | jundef => "undefined"
  | jnull => "null"
  | jbool b => if b then "true" else "false"
  | jnum q => jnumToStr q
  | jnan => "NaN"
  | jstr s => s
  | jarrNil => ""
  | jarrCons h jarrNil => jsToStr h
  | jarrCons h t => jsToStr h ++ "," ++ jsToStr t
  | jobjNil => "[object Object]"
  | jobjCons _ _ _ => "[object Object]"

/-- JS `Number()` string coercion: trimmed empty is `0`, otherwise the
whole string must be a decimal literal. -/
def strToNumber (s : String) : Option JNum :=
  let t := (trimStr s).data
  if t.isEmpty then some (JNum.ofInt 0)
  else
    match parseNumChars t with
    | some (q, []) => some q
    | _ => none

/-- JS `ToNumber` (`none` is `NaN`; arrays and objects are approximated
by `NaN`, which no claim exercises). -/
def toNumber : JSValue → Option JNum
  | jundef => none
  | jnull => some (JNum.ofInt 0)
  | jbool b => some (if b then JNum.ofInt 1 else JNum.ofInt 0)
  | jnum q => some q
  | jnan => none
  | jstr s => strToNumber s
  | _ => none

/-- JS `parseFloat`: stringify, skip leading whitespace, parse the
longest decimal prefix, `NaN` on failure. -/
def js_parseFloat (v : JSValue) : JSValue :=
  match parseNumChars ((jsToStr v).data.dropWhile isWsChar) with
  | some (q, _) => jnum q
  | none => jnan

def jsAdd (a b : JSValue) : JSValue :=
  match toNumber a, toNumber b with
  | some x, some y => jnum (x.add y)
  | _, _ => jnan

def jsSub (a b : JSValue) : JSValue :=
  match toNumber a, toNumber b with
  | some x, some y => jnum (x.sub y)
  | _, _ => jnan

def jsMul (a b : JSValue) : JSValue :=
  match toNumber a, toNumber b with
  | some x, some y => jnum (x.mul y)
  | _, _ => jnan

/-- `a > b` (false whenever either side coerces to `NaN`). -/
def jsGT (a b : JSValue) : Bool :=
  match toNumber a, toNumber b with
  | some x, some y => JNum.lt y x
  | _, _ => false

/-- `Math.min` on two arguments. -/
def jsMin (a b : JSValue) : JSValue :=
  match toNumber a, toNumber b with
  | some x, some y => jnum (JNum.minv x y)
  | _, _ => jnan

/-- `a === n` for a number literal `n`. -/
def jsTripleEqNum (a : JSValue) (n : JNum) : Bool :=
  match a with
  | jnum q => JNum.eqv q n
  | _ => false

/-- Method call `v.trim()`: only strings have it. -/
def jsTrimMethod : JSValue → Except JsError String
  | jstr s => .ok (trimStr s)
  | _ => .error .typeError

/-- Method call `v.toLowerCase()`: only strings have it. -/
def jsToLowerCase : JSValue → Except JsError String
  | jstr s => .ok (lowerStr s)
  | _ => .error .typeError

/-- Method call `v.toString()`: throws on `null`/`undefined`. -/
def jsToStrMethod : JSValue → Except JsError String
  | jundef => .error .typeError
  | jnull => .error .typeError
  | v => .ok (jsToStr v)

/-- One entry of the TTL cache.  `expiresAt` is an absolute millisecond
timestamp (`none` when the TTL coerced to `NaN`, making the entry never
readable). -/
structure CacheEntry where
  key : String
  value : JSValue
  expiresAt : Option JNum
deriving DecidableEq

/-- Modelled from the spec: the repository does not ship
`utils/apiUtils.js`; the spec describes the cache store as an injected
key-value store where `get(key)` returns the value or a miss and a read
after `expiresAt` is treated as absent.  `getCachedResponse` returns the
most recently stored value for the key while it is still fresh. -/
def getCachedResponse : List CacheEntry → String → Int → Option JSValue
  | [], _, _ => none
  | e :: rest, key, now =>
      if e.key = key then
        match e.expiresAt with
        | some t => if JNum.le (JNum.ofInt now) t then some e.value else none
        | none => none
      else getCachedResponse rest key now

def removeKey : List CacheEntry → String → List CacheEntry
  | [], _ => []
  | e :: rest, key => if e.key = key then removeKey rest key else e :: removeKey rest key

/-- Modelled from the spec: `put(key, value, ttlSeconds)` stores the
value with expiry `now + ttlSeconds` (milliseconds here), superseding any
previous entry for the key. -/
def cacheResponse (cache : List CacheEntry) (key : String) (value : JSValue)
    (ttlSeconds : JSValue) (now : Int) : List CacheEntry :=
  ⟨key, value,
   (toNumber ttlSeconds).map (fun t => (JNum.ofInt now).add (t.mul (JNum.ofInt 1000)))⟩
    :: removeKey cache key

/-- One outbound HTTP request (URL plus form body, in source order). -/
structure Request where
  url : String
  params : List (String × String)
deriving DecidableEq

/-- The mutable world of a run: the cache store plus observation logs of
every cache lookup and every outbound request. -/
structure St where
  cache : List CacheEntry
  lookups : List String
  requests : List Request
deriving DecidableEq

def emptySt : St := ⟨[], [], []⟩

def logLookup (s : St) (key : String) : St := { s with lookups := s.lookups ++ [key] }

def logRequest (s : St) (r : Request) : St := { s with requests := s.requests ++ [r] }

def putCache (s : St) (key : String) (value : JSValue) (ttl : JSValue) (now : Int) : St :=
  { s with cache := cacheResponse s.cache key value ttl now }

/-- What one upstream endpoint would answer: `ok`/`status` of the HTTP
response and the parsed JSON body. -/
structure FetchResponse where
  ok : Bool
  status : Int
  body : JSValue
deriving DecidableEq

/-- The read-only environment of a run: the two credential variables and
the response each endpoint would give (`none` models a rejected fetch,
i.e. a network error). -/
structure World where
  clientId : Option String
  clientSecret : Option String
  tokenResp : Option FetchResponse
  searchResp : Option FetchResponse
  detailResp : Option FetchResponse
  autoResp : Option FetchResponse
deriving DecidableEq

/-- Truthiness of `process.env.X` (absent or empty is falsy). -/
def envSet : Option String → Bool
  | some s => s ≠ ""
  | none => false

def FATSECRET_TOKEN_URL : String := "https://oauth.fatsecret.com/connect/token"

def FATSECRET_API_URL : String := "https://platform.fatsecret.com/rest/server.api"

def TOKEN_CACHE_KEY : String := "fatsecret_token"

def tokenRequestParams (w : World) : List (String × String) :=
  [("grant_type", "client_credentials"),
   ("scope", "basic premier barcode localization"),
   ("client_id", w.clientId.getD ""),
   ("client_secret", w.clientSecret.getD "")]

/-- The cache-miss arm of `getAccessToken` (everything after the cached
token check, lines 29-69 of `fatSecretAPI.js`).  The surrounding
`try via catch` rethrows the error unchanged, so it is not reified. -/
def getAccessTokenFresh (w : World) (now : Int) (s : St) :
    Except JsError JSValue × St :=
  if !envSet w.clientId || !envSet w.clientSecret then
    (.error (.jsError "FatSecret API credentials not configured"), s)
  else
    let s := logRequest s ⟨FATSECRET_TOKEN_URL, tokenRequestParams w⟩
    match w.tokenResp with
    | none => (.error .networkError, s)
    | some resp =>
        if !resp.ok then
          (.error (.jsError ("Failed to get FatSecret token: " ++ intToStr resp.status)), s)
        else
          let tokenData := resp.body
          let expiresAt :=
            jsSub (jsAdd (jnum (JNum.ofInt now))
                    (jsMul (getFieldD tokenData "expires_in") (jnum (JNum.ofInt 1000))))
              (jnum (JNum.ofInt 60000))
          let tokenWithExpiry := objSpreadSet tokenData "expires_at" expiresAt
          let s := putCache s TOKEN_CACHE_KEY tokenWithExpiry
                     (getFieldD tokenData "expires_in") now
          (.ok (getFieldD tokenData "access_token"), s)

/-- `getAccessToken` (lines 20-74): return the cached token while its own
`expires_at` lies in the future, otherwise run the grant exchange. -/
def getAccessToken (w : World) (now : Int) (s : St) : Except JsError JSValue × St :=
  let s := logLookup s TOKEN_CACHE_KEY
  match getCachedResponse s.cache TOKEN_CACHE_KEY now with
  | some cachedToken =>
      if truthy cachedToken && jsGT (getFieldD cachedToken "expires_at") (jnum (JNum.ofInt now)) then
        (.ok (getFieldD cachedToken "access_token"), s)
      else getAccessTokenFresh w now s
  | none => getAccessTokenFresh w now s

/-- Envelope normalization of `searchFoods` (lines 120-129): absent or
falsy `foods`/`foods.food` is the empty result (`none` here, returned as
`[]` without caching); a single value is wrapped; an array is kept. -/
def searchExtract (searchData : JSValue) : Except JsError (Option (List JSValue)) :=
  match getField searchData "foods" with
  | .error e => .error e
  | .ok foods =>
      if !truthy foods then .ok none
      else
        let food := getFieldD foods "food"
        if !truthy food then .ok none
        else if isArray food then .ok (some (elemsOf food)) else .ok (some [food])

/-- Envelope normalization of `autocompleteSearch` (lines 349-361), the
same pattern over `suggestions`/`suggestion`. -/
def autoExtract (responseData : JSValue) : Except JsError (Option (List JSValue)) :=
  match getField responseData "suggestions" with
  | .error e => .error e
  | .ok suggestions =>
      if !truthy suggestions then .ok none
      else
        let suggestion := getFieldD suggestions "suggestion"
        if !truthy suggestion then .ok none
        else if isArray suggestion then .ok (some (elemsOf suggestion)) else .ok (some [suggestion])

def searchKeyOf (query : String) : String := "fatsecret_search_" ++ trimStr (lowerStr query)

def searchRequest (query maxResultsStr : String) : Request :=
  ⟨FATSECRET_API_URL,
   [("method", "foods.search"), ("search_expression", query),
    ("max_results", maxResultsStr), ("format", "json")]⟩

/-- The cache-miss arm of `searchFoods` (lines 94-135). -/
def searchFoodsFresh (w : World) (now : Int) (query maxResults : JSValue)
    (cacheKey : String) (s : St) : Except JsError JSValue × St :=
  match getAccessToken w now s with
  | (.error e, s) => (.error e, s)
  | (.ok _accessToken, s) =>
      match jsToStrMethod maxResults with
      | .error e => (.error e, s)
      | .ok maxStr =>
          let s := logRequest s (searchRequest (jsToStr query) maxStr)
          match w.searchResp with
          | none => (.error .networkError, s)
          | some resp =>
              if !resp.ok then
                (.error (.jsError ("Failed to search FatSecret: " ++ intToStr resp.status)), s)
              else
                match searchExtract resp.body with
                | .error e => (.error e, s)
                | .ok none => (.ok jarrNil, s)
                | .ok (some foods) =>
                    let s := putCache s cacheKey (arrOf foods) (jnum (JNum.ofInt 86400)) now
                    (.ok (arrOf foods), s)

/-- Body of `searchFoods` before its catch-all (lines 83-135). -/
def searchFoodsTry (w : World) (now : Int) (query maxResults : JSValue) (s : St) :
    Except JsError JSValue × St :=
  match jsToLowerCase query with
  | .error e => (.error e, s)
  | .ok lower =>
      let cacheKey := "fatsecret_search_" ++ trimStr lower
      let s := logLookup s cacheKey
      match getCachedResponse s.cache cacheKey now with
      | some cached =>
          if truthy cached then (.ok cached, s)
          else searchFoodsFresh w now query maxResults cacheKey s
      | none => searchFoodsFresh w now query maxResults cacheKey s

/-- `searchFoods` (lines 82-140): any error degrades to the empty list
(fail-open). -/
def searchFoods (w : World) (now : Int) (query maxResults : JSValue) (s : St) :
    Except JsError JSValue × St :=
  match searchFoodsTry w now query maxResults s with
  | (.error _, s) => (.ok jarrNil, s)
  | r => r

/-- The cache-miss arm of `getFoodDetails` (lines 159-189). -/
def getFoodDetailsFresh (w : World) (now : Int) (foodId : JSValue)
    (cacheKey : String) (s : St) : Except JsError JSValue × St :=
  match getAccessToken w now s with
  | (.error e, s) => (.error e, s)
  | (.ok _accessToken, s) =>
      let s := logRequest s
        ⟨FATSECRET_API_URL,
         [("method", "food.get.v2"), ("food_id", jsToStr foodId),
          ("format", "json"), ("include_sub_categories", "true")]⟩
      match w.detailResp with
      | none => (.error .networkError, s)
      | some resp =>
          if !resp.ok then
            (.error (.jsError ("Failed to get FatSecret food details: " ++ intToStr resp.status)), s)
          else
            match getField resp.body "food" with
            | .error e => (.error e, s)
            | .ok food =>
                let s := putCache s cacheKey food (jnum (JNum.ofInt 604800)) now
                (.ok food, s)

/-- `getFoodDetails` (lines 147-194); its catch rethrows, so errors
propagate (fail-closed). -/
def getFoodDetails (w : World) (now : Int) (foodId : JSValue) (s : St) :
    Except JsError JSValue × St :=
  let cacheKey := "fatsecret_food_" ++ jsToStr foodId
  let s := logLookup s cacheKey
  match getCachedResponse s.cache cacheKey now with
  | some cached =>
      if truthy cached then (.ok cached, s)
      else getFoodDetailsFresh w now foodId cacheKey s
  | none => getFoodDetailsFresh w now foodId cacheKey s

def microEntries (serving : JSValue) : List (String × JSValue) :=
  (if truthy (getFieldD serving "fiber")
   then [("fiber", js_parseFloat (getFieldD serving "fiber"))] else []) ++
  (if truthy (getFieldD serving "sugar")
   then [("sugar", js_parseFloat (getFieldD serving "sugar"))] else []) ++
  (if truthy (getFieldD serving "sodium")
   then [("sodium", js_parseFloat (getFieldD serving "sodium"))] else []) ++
  (if truthy (getFieldD serving "potassium")
   then [("potassium", js_parseFloat (getFieldD serving "potassium"))] else []) ++
  (if truthy (getFieldD serving "cholesterol")
   then [("cholesterol", js_parseFloat (getFieldD serving "cholesterol"))] else []) ++
  (if truthy (getFieldD serving "saturated_fat")
   then [("saturatedFat", js_parseFloat (getFieldD serving "saturated_fat"))] else [])

/-- The default nutrition object of lines 203-212 (key order is JS
insertion order). -/
def defaultNutrition (foodNameField : JSValue) : JSValue :=
  objOf [("calories", jnum (JNum.ofInt 0)), ("protein", jnum (JNum.ofInt 0)),
         ("fat", jnum (JNum.ofInt 0)), ("carbohydrates", jnum (JNum.ofInt 0)),
         ("foodName", jsOr foodNameField (jstr "Unknown Food")),
         ("source", jstr "FatSecret"), ("servingSize", jstr "100g"),
         ("microNutrients", jobjNil)]

/-- Serving selection of lines 216-223: guard on `servings` and
`servings.serving`, then first element of an array else the sole value. -/
def firstServing (food : JSValue) : Except JsError (Option JSValue) :=
  match getField food "servings" with
  | .error e => .error e
  | .ok servings =>
      if ¬ truthy servings then .ok none
      else
        let serving := getFieldD servings "serving"
        if ¬ truthy serving then .ok none
        else if isArray serving then .ok (some (arrGet serving 0)) else .ok (some serving)

/-- The field extraction of lines 226-238 applied to the chosen serving.
In the source the only possible throw is the very first property read on
a `null`/`undefined` serving (an empty `serving` array), which happens
before any field of the nutrition object is overwritten, so returning the
untouched default on error is faithful. -/
def buildNutrition (serving foodNameField : JSValue) : Except JsError JSValue :=
  match getField serving "calories" with
  | .error e => .error e
  | .ok cal =>
      .ok (objOf
        [("calories", jsOr (js_parseFloat cal) (jnum (JNum.ofInt 0))),
         ("protein", jsOr (js_parseFloat (getFieldD serving "protein")) (jnum (JNum.ofInt 0))),
         ("fat", jsOr (js_parseFloat (getFieldD serving "fat")) (jnum (JNum.ofInt 0))),
         ("carbohydrates", jsOr (js_parseFloat (getFieldD serving "carbohydrate")) (jnum (JNum.ofInt 0))),
         ("foodName", jsOr foodNameField (jstr "Unknown Food")),
         ("source", jstr "FatSecret"),
         ("servingSize", jsOr (getFieldD serving "serving_description") (jstr "100g")),
         ("microNutrients", objOf (microEntries serving))])

/-- `standardizeNutritionData` (lines 201-245).  Note that the read
`fatSecretFood.food_name` happens before the `try` block, so a
`null`/`undefined` argument throws out of the function. -/
def standardizeNutritionData (fatSecretFood : JSValue) : Except JsError JSValue :=
  match getField fatSecretFood "food_name" with
  | .error e => .error e
  | .ok fn =>
      match (match firstServing fatSecretFood with
             | .error e => .error e
             | .ok none => .ok (defaultNutrition fn)
             | .ok (some serving) => buildNutrition serving fn : Except JsError JSValue) with
      | .ok n => .ok n
      | .error _ => .ok (defaultNutrition fn)

def nutritionKeyOf (label : String) : String :=
  "fatsecret_nutrition_" ++ trimStr (lowerStr label)

/-- The cache-miss arm of `getNutritionFromFatSecret` (lines 266-285). -/
def getNutritionFresh (w : World) (now : Int) (foodLabel : JSValue)
    (cacheKey : String) (s : St) : Except JsError JSValue × St :=
  match searchFoods w now foodLabel (jnum (JNum.ofInt 3)) s with
  | (.error e, s) => (.error e, s)
  | (.ok searchResults, s) =>
      if !truthy searchResults || jsTripleEqNum (getFieldD searchResults "length") (JNum.ofInt 0) then
        (.ok jnull, s)
      else
        match getField (arrGet searchResults 0) "food_id" with
        | .error e => (.error e, s)
        | .ok foodId =>
            match getFoodDetails w now foodId s with
            | (.error e, s) => (.error e, s)
            | (.ok foodDetails, s) =>
                match standardizeNutritionData foodDetails with
                | .error e => (.error e, s)
                | .ok nutritionData =>
                    let s := putCache s cacheKey nutritionData (jnum (JNum.ofInt 86400)) now
                    (.ok nutritionData, s)

/-- Body of `getNutritionFromFatSecret` before its catch-all
(lines 253-285). -/
def getNutritionTry (w : World) (now : Int) (foodLabel : JSValue) (s : St) :
    Except JsError JSValue × St :=
  if !truthy foodLabel then (.ok jnull, s)
  else
    match jsToLowerCase foodLabel with
    | .error e => (.error e, s)
    | .ok lower =>
        let cacheKey := "fatsecret_nutrition_" ++ trimStr lower
        let s := logLookup s cacheKey
        match getCachedResponse s.cache cacheKey now with
        | some cached =>
            if truthy cached then (.ok cached, s)
            else getNutritionFresh w now foodLabel cacheKey s
        | none => getNutritionFresh w now foodLabel cacheKey s

/-- `getNutritionFromFatSecret` (lines 252-290): any error degrades to
`null` (fail-open). -/
def getNutritionFromFatSecret (w : World) (now : Int) (foodLabel : JSValue) (s : St) :
    Except JsError JSValue × St :=
  match getNutritionTry w now foodLabel s with
  | (.error _, s) => (.ok jnull, s)
  | r => r

def autoKeyOf (expression : String) (maxResults region : JSValue) : String :=
  "fatsecret_autocomplete_" ++ trimStr (lowerStr expression) ++ "_" ++ jsToStr maxResults
    ++ "_" ++ (if truthy region then jsToStr region else "default")

def autoRequest (trimmed : String) (maxResults region : JSValue) : Request :=
  ⟨FATSECRET_API_URL,
   [("method", "foods.autocomplete.v2"), ("expression", trimmed),
    ("max_results", jsToStr (jsMin maxResults (jnum (JNum.ofInt 10)))), ("format", "json")]
   ++ (if truthy region then [("region", jsToStr region)] else [])⟩

/-- The cache-miss arm of `autocompleteSearch` (lines 315-367). -/
def autocompleteSearchFresh (w : World) (now : Int) (_expression maxResults region : JSValue)
    (trimmed : String) (cacheKey : String) (s : St) : Except JsError JSValue × St :=
  match getAccessToken w now s with
  | (.error e, s) => (.error e, s)
  | (.ok _accessToken, s) =>
      let s := logRequest s (autoRequest trimmed maxResults region)
      match w.autoResp with
      | none => (.error .networkError, s)
      | some resp =>
          if !resp.ok then
            (.error (.jsError ("Failed to get autocomplete suggestions: " ++ intToStr resp.status)), s)
          else
            match autoExtract resp.body with
            | .error e => (.error e, s)
            | .ok none => (.ok jarrNil, s)
            | .ok (some suggestions) =>
                let s := putCache s cacheKey (arrOf suggestions) (jnum (JNum.ofInt 900)) now
                (.ok (arrOf suggestions), s)

/-- Body of `autocompleteSearch` before its catch-all (lines 300-367). -/
def autocompleteSearchTry (w : World) (now : Int) (expression maxResults region : JSValue)
    (s : St) : Except JsError JSValue × St :=
  if !truthy expression then (.ok jarrNil, s)
  else
    match jsTrimMethod expression with
    | .error e => (.error e, s)
    | .ok trimmed =>
        if trimmed.length < 2 then (.ok jarrNil, s)
        else
          match jsToLowerCase expression with
          | .error e => (.error e, s)
          | .ok lower =>
              let cacheKey := "fatsecret_autocomplete_" ++ trimStr lower ++ "_"
                ++ jsToStr maxResults ++ "_"
                ++ (if truthy region then jsToStr region else "default")
              let s := logLookup s cacheKey
              match getCachedResponse s.cache cacheKey now with
              | some cached =>
                  if truthy cached then (.ok cached, s)
                  else autocompleteSearchFresh w now expression maxResults region trimmed cacheKey s
              | none => autocompleteSearchFresh w now expression maxResults region trimmed cacheKey s

/-- `autocompleteSearch` (lines 299-372): any error degrades to the empty
list (fail-open). -/
def autocompleteSearch (w : World) (now : Int) (expression maxResults region : JSValue)
    (s : St) : Except JsError JSValue × St :=
  match autocompleteSearchTry w now expression maxResults region s with
  | (.error _, s) => (.ok jarrNil, s)
  | r => r

/-- Body of the exposed `searchFatSecretNutrition` handler
(`part_000` lines 17-49) before its catch-all.  The validation throw
sits inside the same `try` as everything else. -/
def searchFatSecretNutritionBody (w : World) (now : Int) (data : JSValue) (s : St) :
    Except JsError JSValue × St :=
  match getField data "foodName" with
  | .error e => (.error e, s)
  | .ok fn =>
      if !truthy fn then
        (.error (.httpsError "invalid-argument" "Missing food name to search" jundef), s)
      else
        match jsTrimMethod fn with
        | .error e => (.error e, s)
        | .ok searchTerm =>
            match getNutritionFromFatSecret w now (jstr searchTerm) s with
            | (.error e, s) => (.error e, s)
            | (.ok nutritionData, s) =>
                if !truthy nutritionData then
                  (.ok (objOf
                    [("success", jbool false),
                     ("message", jstr ("No nutrition data found for \"" ++ searchTerm ++ "\"")),
                     ("source", jstr "FatSecret")]), s)
                else
                  (.ok (objOf
                    [("success", jbool true), ("source", jstr "FatSecret"),
                     ("nutritionData", nutritionData),
                     ("message", jstr ("Found nutrition data for \"" ++ searchTerm
                       ++ "\" from FatSecret"))]), s)

/-- The exposed `searchFatSecretNutrition` operation (lines 15-59): its
catch-all rewraps every thrown error, the validation error included, as a
generic `internal` error whose details carry the original message. -/
def searchFatSecretNutrition (w : World) (now : Int) (data : JSValue) (s : St) :
    Except JsError JSValue × St :=
  match searchFatSecretNutritionBody w now data s with
  | (.error e, s) =>
      (.error (.httpsError "internal" "Error searching for nutrition data"
        (jstr (errMessage e))), s)
  | r => r

/-- Body of the exposed `getFatSecretFoodDetails` handler
(`part_000` lines 66-105) before its catch-all. -/
def getFatSecretFoodDetailsBody (w : World) (now : Int) (data : JSValue) (s : St) :
    Except JsError JSValue × St :=
  match getField data "foodId" with
  | .error e => (.error e, s)
  | .ok foodId =>
      if !truthy foodId then
        (.error (.httpsError "invalid-argument" "Missing food ID" jundef), s)
      else
        match getFoodDetails w now foodId s with
        | (.error e, s) => (.error e, s)
        | (.ok foodDetails, s) =>
            if !truthy foodDetails then
              (.ok (objOf
                [("success", jbool false),
                 ("message", jstr ("No food details found for ID \"" ++ jsToStr foodId ++ "\"")),
                 ("source", jstr "FatSecret")]), s)
            else
              match standardizeNutritionData foodDetails with
              | .error e => (.error e, s)
              | .ok nutritionData =>
                  (.ok (objOf
                    [("success", jbool true), ("foodDetails", foodDetails),
                     ("nutritionData", nutritionData), ("source", jstr "FatSecret"),
                     ("message", jstr ("Found food details for ID \"" ++ jsToStr foodId
                       ++ "\" from FatSecret"))]), s)

/-- The exposed `getFatSecretFoodDetails` operation (lines 66-115), with
the same catch-all rewrapping as `searchFatSecretNutrition`. -/
def getFatSecretFoodDetails (w : World) (now : Int) (data : JSValue) (s : St) :
    Except JsError JSValue × St :=
  match getFatSecretFoodDetailsBody w now data s with
  | (.error e, s) =>
      (.error (.httpsError "internal" "Error getting food details" (jstr (errMessage e))), s)
  | r => r

/-- Body of the exposed `getAutocompleteSuggestions` handler
(`part_000` lines 124-151) before its catch-all. -/
def getAutocompleteSuggestionsBody (w : World) (now : Int) (data : JSValue) (s : St) :
    Except JsError JSValue × St :=
  match getField data "query" with
  | .error e => (.error e, s)
  | .ok q =>
      if !truthy q then
        (.error (.httpsError "invalid-argument" "Missing search query" jundef), s)
      else
        match jsTrimMethod q with
        | .error e => (.error e, s)
        | .ok searchQuery =>
            let maxResults := jsOr (getFieldD data "maxResults") (jnum (JNum.ofInt 4))
            let region := jsOr (getFieldD data "region") jnull
            match autocompleteSearch w now (jstr searchQuery) maxResults region s with
            | (.error e, s) => (.error e, s)
            | (.ok suggestions, s) =>
                (.ok (objOf
                  [("success", jbool true), ("suggestions", suggestions),
                   ("message", jstr ("Found " ++ jsToStr (getFieldD suggestions "length")
                     ++ " autocomplete suggestions for \"" ++ searchQuery ++ "\""))]), s)

/-- The exposed `getAutocompleteSuggestions` operation (lines 124-161),
with the same catch-all rewrapping. -/
def getAutocompleteSuggestions (w : World) (now : Int) (data : JSValue) (s : St) :
    Except JsError JSValue × St :=
  match getAutocompleteSuggestionsBody w now data s with
  | (.error e, s) =>
      (.error (.httpsError "internal" "Error getting autocomplete suggestions"
        (jstr (errMessage e))), s)
  | r => r

/-! Helper definitions used by the theorem statements. -/

/-- The sub-list of cache entries stored under a given key. -/
def entriesFor : List CacheEntry → String → List CacheEntry
  | [], _ => []
  | e :: rest, key =>
      if e.key = key then e :: entriesFor rest key else entriesFor rest key

/-- The most recently stored entry for a key, fresh or not. -/
def cacheFind : List CacheEntry → String → Option CacheEntry
  | [], _ => none
  | e :: rest, key => if e.key = key then some e else cacheFind rest key

/-- Whether `getAccessToken` would take its cached-token fast path. -/
def tokenCacheValid (cache : List CacheEntry) (now : Int) : Bool :=
  match getCachedResponse cache TOKEN_CACHE_KEY now with
  | some v => truthy v && jsGT (getFieldD v "expires_at") (jnum (JNum.ofInt now))
  | none => false

/-- Whether a cached-value lookup would hit (a fresh entry whose value is
truthy), the hit test every client function uses. -/
def cacheHitVal (cache : List CacheEntry) (key : String) (now : Int) : Bool :=
  match getCachedResponse cache key now with
  | some v => truthy v
  | none => false

/-- The keys of the six optional micronutrients that are truthy on a
serving, in source order and with the `saturated_fat` rename. -/
def truthyMicroKeys (serving : JSValue) : List String :=
  (if truthy (getFieldD serving "fiber") then ["fiber"] else []) ++
  (if truthy (getFieldD serving "sugar") then ["sugar"] else []) ++
  (if truthy (getFieldD serving "sodium") then ["sodium"] else []) ++
  (if truthy (getFieldD serving "potassium") then ["potassium"] else []) ++
  (if truthy (getFieldD serving "cholesterol") then ["cholesterol"] else []) ++
  (if truthy (getFieldD serving "saturated_fat") then ["saturatedFat"] else [])

/-- Micronutrient key list of a normalization result (`none` when the
normalizer threw). -/
def resultMicroKeys : Except JsError JSValue → Option (List String)
  | .ok n => some (objKeys (getFieldD n "microNutrients"))
  | .error _ => none

/-- A search response body whose repeated field holds the given value. -/
def wrapSearchBody (x : JSValue) : JSValue := objOf [("foods", objOf [("food", x)])]

/-- An autocomplete response body whose repeated field holds the given
value. -/
def wrapAutoBody (x : JSValue) : JSValue :=
  objOf [("suggestions", objOf [("suggestion", x)])]

/-- Concrete world with no credentials and no endpoints, for evaluations
that never reach the network. -/
def worldEmpty : World := ⟨none, none, none, none, none, none⟩

/-- Concrete detail payload whose single serving carries `fiber` present
but equal to the empty string. -/
def c3Food : JSValue :=
  objOf [("servings", objOf [("serving", objOf [("fiber", jstr "")])])]

/-- Concrete state holding a still-valid cached token while the
credentials are unset. -/
def c4CachedSt : St :=
  ⟨[⟨TOKEN_CACHE_KEY,
     objOf [("access_token", jstr "tok"), ("expires_at", jnum (JNum.ofInt 1000))],
     some (JNum.ofInt 2000)⟩], [], []⟩

/-- Concrete world whose search endpoint answers success with
`foods.food` equal to the empty array. -/
def c8World : World :=
  ⟨some "id", some "sec",
   some ⟨true, 200, objOf [("access_token", jstr "TOK"), ("expires_in", jnum (JNum.ofInt 3600))]⟩,
   some ⟨true, 200, wrapSearchBody jarrNil⟩,
   none, none⟩


/-- Concrete world whose token endpoint answers 401. -/
def c4FailWorld : World := ⟨some "id", some "sec", some ⟨false, 401, jnull⟩, none, none, none⟩

/-- Concrete world whose token endpoint issues a 3600-second token. -/
def c5World : World :=
  ⟨some "id", some "sec",
   some ⟨true, 200, objOf [("access_token", jstr "TOK"), ("expires_in", jnum (JNum.ofInt 3600))]⟩,
   none, none, none⟩

/-- Concrete world whose autocomplete endpoint answers one suggestion. -/
def c10World : World :=
  ⟨some "id", some "sec",
   some ⟨true, 200, objOf [("access_token", jstr "TOK"), ("expires_in", jnum (JNum.ofInt 3600))]⟩,
   none, none,
   some ⟨true, 200, wrapAutoBody (jstr "kale salad")⟩⟩

/-! Infrastructure lemmas. -/

@[simp]
theorem cache_logLookup (s : St) (k : String) : (logLookup s k).cache = s.cache := rfl

@[simp]
theorem cache_logRequest (s : St) (r : Request) : (logRequest s r).cache = s.cache := rfl

@[simp]
theorem requests_logLookup (s : St) (k : String) : (logLookup s k).requests = s.requests := rfl

@[simp]
theorem requests_putCache (s : St) (k : String) (v ttl : JSValue) (now : Int) :
    (putCache s k v ttl now).requests = s.requests := rfl

theorem getField_ok (v : JSValue) (k : String) (h1 : v ≠ jnull) (h2 : v ≠ jundef) :
    getField v k = .ok (getFieldD v k) := by
  cases v <;> simp_all [getField, getFieldD]

theorem objKeys_objOf (l : List (String × JSValue)) :
    objKeys (objOf l) = l.map Prod.fst := by
  induction l with
  | nil => rfl
  | cons p r ih => cases p; simp [objOf, objKeys, ih]

theorem entriesFor_removeKey (c : List CacheEntry) (kr k : String) (h : kr ≠ k) :
    entriesFor (removeKey c kr) k = entriesFor c k := by
  induction c with
  | nil => rfl
  | cons e r ih =>
      by_cases he : e.key = kr
      · have : e.key ≠ k := by rw [he]; exact h
        simp [removeKey, entriesFor, he, this, ih, h, Ne.symm h]
      · by_cases hk : e.key = k <;>
          simp [removeKey, entriesFor, he, hk, ih, h, Ne.symm h]

theorem entriesFor_cacheResponse_ne (c : List CacheEntry) (kw k : String)
    (v ttl : JSValue) (now : Int) (h : kw ≠ k) :
    entriesFor (cacheResponse c kw v ttl now) k = entriesFor c k := by
  simp [cacheResponse, entriesFor, h, entriesFor_removeKey c kw k h]

theorem firstServing_isOk (v : JSValue) (h1 : v ≠ jnull) (h2 : v ≠ jundef) :
    ∃ o, firstServing v = .ok o := by
  unfold firstServing
  rw [getField_ok v "servings" h1 h2]
  dsimp only
  split
  · exact ⟨none, rfl⟩
  · split
    · exact ⟨none, rfl⟩
    · split <;> exact ⟨_, rfl⟩

/-- C1: evaluating each exposed operation with its required argument
absent.  Contrary to the claim, no invalid-argument condition reaches the
caller: the handler constructs the invalid-argument error inside its own
`try` block, so the catch-all rewraps it and the caller receives a
generic `internal` error whose details carry the validation message.
(The second half of the claim, that thrown errors surface as internal
with the original message, is exactly what these evaluations show.) -/
theorem exposed_ops_missing_argument_surfaces_internal :
    searchFatSecretNutrition worldEmpty 0 jobjNil emptySt
      = (.error (.httpsError "internal" "Error searching for nutrition data"
          (jstr "Missing food name to search")), emptySt)
  ∧ getFatSecretFoodDetails worldEmpty 0 jobjNil emptySt
      = (.error (.httpsError "internal" "Error getting food details"
          (jstr "Missing food ID")), emptySt)
  ∧ getAutocompleteSuggestions worldEmpty 0 jobjNil emptySt
      = (.error (.httpsError "internal" "Error getting autocomplete suggestions"
          (jstr "Missing search query")), emptySt) :=
  ⟨rfl, rfl, rfl⟩

/-- C2 counterexample: `standardizeNutritionData` reads
`fatSecretFood.food_name` before entering its `try` block, so the absent
(`null`) payload makes it raise a `TypeError` instead of returning a
canonical record — refuting "never raises on any input". -/
theorem standardize_raises_on_null :
    standardizeNutritionData jnull = .error .typeError := rfl

/-- C2 amended: on every payload that is not `null`/`undefined`,
`standardizeNutritionData` returns a canonical record (with the eight
canonical fields, defaults where parsing found nothing); on
`null`/`undefined` it raises. -/
theorem standardize_total_on_nonabsent (v : JSValue)
    (h1 : v ≠ jnull) (h2 : v ≠ jundef) :
    ∃ n, standardizeNutritionData v = .ok n ∧
      objKeys n = ["calories", "protein", "fat", "carbohydrates", "foodName",
                   "source", "servingSize", "microNutrients"] := by
  obtain ⟨o, ho⟩ := firstServing_isOk v h1 h2
  unfold standardizeNutritionData
  rw [getField_ok v "food_name" h1 h2, ho]
  cases o with
  | none =>
      refine ⟨defaultNutrition (getFieldD v "food_name"), by simp, ?_⟩
      simp [defaultNutrition, objOf, objKeys]
  | some serving =>
      unfold buildNutrition
      cases hcal : getField serving "calories" with
      | error e =>
          refine ⟨defaultNutrition (getFieldD v "food_name"), by simp [hcal], ?_⟩
          simp [defaultNutrition, objOf, objKeys]
      | ok cal =>
          refine ⟨objOf
            [("calories", jsOr (js_parseFloat cal) (jnum (JNum.ofInt 0))),
             ("protein", jsOr (js_parseFloat (getFieldD serving "protein")) (jnum (JNum.ofInt 0))),
             ("fat", jsOr (js_parseFloat (getFieldD serving "fat")) (jnum (JNum.ofInt 0))),
             ("carbohydrates", jsOr (js_parseFloat (getFieldD serving "carbohydrate")) (jnum (JNum.ofInt 0))),
             ("foodName", jsOr (getFieldD v "food_name") (jstr "Unknown Food")),
             ("source", jstr "FatSecret"),
             ("servingSize", jsOr (getFieldD serving "serving_description") (jstr "100g")),
             ("microNutrients", objOf (microEntries serving))], by simp [hcal], ?_⟩
          simp [objOf, objKeys]

/-- C2 witness: the amended theorem applied to the empty-object payload. -/
theorem standardize_total_on_nonabsent_witness :
    ∃ n, standardizeNutritionData jobjNil = .ok n ∧
      objKeys n = ["calories", "protein", "fat", "carbohydrates", "foodName",
                   "source", "servingSize", "microNutrients"] :=
  standardize_total_on_nonabsent jobjNil (by decide) (by decide)

/-- C9: an absent (falsy) expression, or one whose trimmed length is
below 2, makes `autocompleteSearch` return the empty list with the state
untouched: no cache lookup is recorded and no upstream request is
issued. -/
theorem autocomplete_short_expression_guard (w : World) (now : Int)
    (maxResults region e : JSValue) (s : St)
    (h : truthy e = false ∨ ∃ str, e = jstr str ∧ (trimStr str).length < 2) :
    autocompleteSearch w now e maxResults region s = (.ok jarrNil, s) := by
  rcases h with h | ⟨str, rfl, hlen⟩
  · simp [autocompleteSearch, autocompleteSearchTry, h]
  · by_cases hstr : str = ""
    · subst hstr
      simp [autocompleteSearch, autocompleteSearchTry, truthy]
    · have hs : truthy (jstr str) = true := by simp [truthy, hstr]
      simp [autocompleteSearch, autocompleteSearchTry, hs, jsTrimMethod, hlen]

/-- C9 witness: the one-character query of the spec. -/
theorem autocomplete_short_expression_guard_witness :
    autocompleteSearch worldEmpty 0 (jstr "a") (jnum (JNum.ofInt 4)) jnull emptySt
      = (.ok jarrNil, emptySt) :=
  autocomplete_short_expression_guard worldEmpty 0 (jnum (JNum.ofInt 4)) jnull
    (jstr "a") emptySt (Or.inr ⟨"a", rfl, by decide⟩)

/-- C6: `searchFoods` and `autocompleteSearch` normalize the result
envelope identically: for the same inner value the two extractions agree,
an absent repeated field yields the empty result, a single (truthy,
non-array) object is wrapped into a one-element list, and an array is
kept unchanged. -/
theorem envelope_normalization_identical (x : JSValue) :
    searchExtract (wrapSearchBody x) = autoExtract (wrapAutoBody x)
  ∧ (isArray x = true → searchExtract (wrapSearchBody x) = .ok (some (elemsOf x)))
  ∧ (truthy x = true → isArray x = false →
      searchExtract (wrapSearchBody x) = .ok (some [x]))
  ∧ (truthy x = false → searchExtract (wrapSearchBody x) = .ok none)
  ∧ searchExtract (objOf []) = .ok none ∧ autoExtract (objOf []) = .ok none := by
  refine ⟨?_, ?_, ?_, ?_, rfl, rfl⟩
  · cases x <;>
      simp [searchExtract, autoExtract, wrapSearchBody, wrapAutoBody, objOf,
        getField, getFieldD, lookupObj, truthy, isArray]
  · intro h
    cases x <;>
      simp_all [searchExtract, wrapSearchBody, objOf, getField, getFieldD,
        lookupObj, truthy, isArray, elemsOf]
  · intro ht ha
    cases x <;>
      simp_all [searchExtract, wrapSearchBody, objOf, getField, getFieldD,
        lookupObj, truthy, isArray]
  · intro h
    cases x <;>
      simp_all [searchExtract, wrapSearchBody, objOf, getField, getFieldD,
        lookupObj, truthy, isArray]

/-- C6 witness: the three envelope shapes at concrete values. -/
theorem envelope_normalization_identical_witness :
    searchExtract (wrapSearchBody (jarrCons (jstr "a") jarrNil))
      = .ok (some (elemsOf (jarrCons (jstr "a") jarrNil)))
  ∧ searchExtract (wrapSearchBody jobjNil) = .ok (some [jobjNil])
  ∧ searchExtract (wrapSearchBody jundef) = .ok none :=
  ⟨(envelope_normalization_identical (jarrCons (jstr "a") jarrNil)).2.1 (by decide),
   (envelope_normalization_identical jobjNil).2.2.1 (by decide) (by decide),
   (envelope_normalization_identical jundef).2.2.2.1 (by decide)⟩

/-- C3 counterexample: a serving whose `fiber` field is present but holds
the empty string.  The claim says a present key appears in
`microNutrients`; the code tests JS truthiness, so the key is dropped. -/
theorem micro_keys_not_presence_based :
    objHasKey (objOf [("fiber", jstr "")]) "fiber" = true
  ∧ resultMicroKeys (standardizeNutritionData c3Food) = some [] := by decide

/-- C3 amended: for a payload with a first serving, `microNutrients`
contains exactly those keys among the six whose source values are truthy
(not merely present), in source order and with `saturated_fat` renamed to
`saturatedFat`; each included value is the bare `parseFloat` of the
source (possibly `NaN`, not defaulted), while the four macro-nutrient
fields default to `0` when their source value is absent or unparsable. -/
theorem standardize_micro_truthiness (food serving : JSValue)
    (h1 : food ≠ jnull) (h2 : food ≠ jundef)
    (hs : firstServing food = .ok (some serving))
    (hs1 : serving ≠ jnull) (hs2 : serving ≠ jundef) :
    ∃ n, standardizeNutritionData food = .ok n ∧
      getFieldD n "microNutrients" = objOf (microEntries serving) ∧
      objKeys (getFieldD n "microNutrients") = truthyMicroKeys serving ∧
      getFieldD n "calories"
        = jsOr (js_parseFloat (getFieldD serving "calories")) (jnum (JNum.ofInt 0)) ∧
      getFieldD n "protein"
        = jsOr (js_parseFloat (getFieldD serving "protein")) (jnum (JNum.ofInt 0)) ∧
      getFieldD n "fat"
        = jsOr (js_parseFloat (getFieldD serving "fat")) (jnum (JNum.ofInt 0)) ∧
      getFieldD n "carbohydrates"
        = jsOr (js_parseFloat (getFieldD serving "carbohydrate")) (jnum (JNum.ofInt 0)) ∧
      (js_parseFloat (getFieldD serving "calories") = jnan →
        getFieldD n "calories" = jnum (JNum.ofInt 0)) ∧
      (getFieldD serving "calories" = jundef →
        getFieldD n "calories" = jnum (JNum.ofInt 0)) := by
  unfold standardizeNutritionData
  rw [getField_ok food "food_name" h1 h2, hs]
  unfold buildNutrition
  dsimp only
  rw [getField_ok serving "calories" hs1 hs2]
  refine ⟨objOf
    [("calories", jsOr (js_parseFloat (getFieldD serving "calories")) (jnum (JNum.ofInt 0))),
     ("protein", jsOr (js_parseFloat (getFieldD serving "protein")) (jnum (JNum.ofInt 0))),
     ("fat", jsOr (js_parseFloat (getFieldD serving "fat")) (jnum (JNum.ofInt 0))),
     ("carbohydrates", jsOr (js_parseFloat (getFieldD serving "carbohydrate")) (jnum (JNum.ofInt 0))),
     ("foodName", jsOr (getFieldD food "food_name") (jstr "Unknown Food")),
     ("source", jstr "FatSecret"),
     ("servingSize", jsOr (getFieldD serving "serving_description") (jstr "100g")),
     ("microNutrients", objOf (microEntries serving))], by simp, ?_, ?_, ?_, ?_, ?_, ?_, ?_, ?_⟩
  · simp [objOf, getFieldD, getField, lookupObj]
  · simp only [objOf, getFieldD, getField, lookupObj]
    simp [objKeys_objOf, microEntries, truthyMicroKeys, apply_ite (List.map Prod.fst)]
  · simp [objOf, getFieldD, getField, lookupObj]
  · simp [objOf, getFieldD, getField, lookupObj]
  · simp [objOf, getFieldD, getField, lookupObj]
  · simp [objOf, getFieldD, getField, lookupObj]
  · intro h
    rw [h]
    simp [objOf, getFieldD, getField, lookupObj, jsOr, truthy]
  · intro h
    rw [h]
    have hpf : js_parseFloat jundef = jnan := by decide
    rw [hpf]
    simp [objOf, getFieldD, getField, lookupObj, jsOr, truthy]

/-- C3 witness: the spec example, `fiber: "3.2"` and no `sugar`. -/
theorem standardize_micro_truthiness_witness :
    ∃ n, standardizeNutritionData
        (objOf [("food_name", jstr "Kale"),
                ("servings", objOf [("serving",
                  objOf [("calories", jstr "49"), ("fiber", jstr "3.2")])])]) = .ok n ∧
      getFieldD n "microNutrients"
        = objOf (microEntries (objOf [("calories", jstr "49"), ("fiber", jstr "3.2")])) ∧
      objKeys (getFieldD n "microNutrients")
        = truthyMicroKeys (objOf [("calories", jstr "49"), ("fiber", jstr "3.2")]) ∧
      getFieldD n "calories"
        = jsOr (js_parseFloat (getFieldD
            (objOf [("calories", jstr "49"), ("fiber", jstr "3.2")]) "calories"))
            (jnum (JNum.ofInt 0)) := by
  obtain ⟨n, hok, hmic, hkeys, hcal, -⟩ :=
    standardize_micro_truthiness
      (objOf [("food_name", jstr "Kale"),
              ("servings", objOf [("serving",
                objOf [("calories", jstr "49"), ("fiber", jstr "3.2")])])])
      (objOf [("calories", jstr "49"), ("fiber", jstr "3.2")])
      (by decide) (by decide) (by rfl) (by decide) (by decide)
  exact ⟨n, hok, hmic, hkeys, hcal⟩

theorem getAccessToken_miss (w : World) (now : Int) (s : St)
    (h : tokenCacheValid s.cache now = false) :
    getAccessToken w now s = getAccessTokenFresh w now (logLookup s TOKEN_CACHE_KEY) := by
  unfold tokenCacheValid at h
  unfold getAccessToken
  cases hc : getCachedResponse s.cache TOKEN_CACHE_KEY now with
  | none => simp [hc]
  | some v =>
      have hfalse : (truthy v && jsGT (getFieldD v "expires_at") (jnum (JNum.ofInt now))) = false := by
        rw [hc] at h
        simpa using h
      simp [hc, hfalse]

/-- C4 counterexample: with a still-valid cached token, a call while the
credentials are unset succeeds instead of failing with the configuration
error — the cached-token fast path precedes the credential check. -/
theorem getAccessToken_unset_credentials_can_succeed :
    envSet worldEmpty.clientId = false
  ∧ (getAccessToken worldEmpty 0 c4CachedSt).1 = .ok (jstr "tok") :=
  ⟨rfl, rfl⟩

/-- C4 amended: on a cache miss (no valid cached token), `getAccessToken`
fails with the configuration error when a credential is unset, and with
the upstream error carrying the HTTP status when the token endpoint
answers non-success. -/
theorem getAccessToken_error_conditions (w : World) (now : Int) (s : St)
    (hmiss : tokenCacheValid s.cache now = false) :
    ((!envSet w.clientId || !envSet w.clientSecret) = true →
      (getAccessToken w now s).1
        = .error (.jsError "FatSecret API credentials not configured"))
  ∧ (∀ resp, envSet w.clientId = true → envSet w.clientSecret = true →
      w.tokenResp = some resp → resp.ok = false →
      (getAccessToken w now s).1
        = .error (.jsError ("Failed to get FatSecret token: " ++ intToStr resp.status))) := by
  constructor
  · intro h
    rw [getAccessToken_miss w now s hmiss]
    unfold getAccessTokenFresh
    simp [h]
  · intro resp hid hsec hresp hok
    rw [getAccessToken_miss w now s hmiss]
    unfold getAccessTokenFresh
    simp [hid, hsec, hresp, hok]

/-- C4 witness: both failure modes at concrete inputs. -/
theorem getAccessToken_error_conditions_witness :
    (getAccessToken worldEmpty 0 emptySt).1
      = .error (.jsError "FatSecret API credentials not configured")
  ∧ (getAccessToken c4FailWorld 0 emptySt).1
      = .error (.jsError ("Failed to get FatSecret token: " ++ intToStr 401)) :=
  ⟨(getAccessToken_error_conditions worldEmpty 0 emptySt (by decide)).1 (by decide),
   (getAccessToken_error_conditions c4FailWorld 0 emptySt (by decide)).2
     ⟨false, 401, jnull⟩ (by decide) (by decide) rfl rfl⟩

/-- C5: a successful grant stores the token with
`expires_at = now + expires_in * 1000 - 60000` (the 60-second safety
margin, in milliseconds); any later call while that `expires_at` exceeds
the current time returns the cached token and issues no request at all;
and a call at or after `expires_at`, with credentials configured,
performs a new grant exchange.  With `expires_in = 3600` the cached
window is exactly 3540 seconds. -/
theorem getAccessToken_token_caching (w w2 : World) (now : Int) (s : St)
    (e : Int) (tok : JSValue) (st : Int)
    (hmiss : getCachedResponse s.cache TOKEN_CACHE_KEY now = none)
    (hid : envSet w.clientId = true) (hsec : envSet w.clientSecret = true)
    (hresp : w.tokenResp = some ⟨true, st,
      objOf [("access_token", tok), ("expires_in", jnum (JNum.ofInt e))]⟩) :
    (getAccessToken w now s).1 = .ok tok
  ∧ (∃ ent, cacheFind (getAccessToken w now s).2.cache TOKEN_CACHE_KEY = some ent ∧
      getFieldD ent.value "expires_at" = jnum (JNum.ofInt (now + e * 1000 - 60000)) ∧
      getFieldD ent.value "access_token" = tok)
  ∧ (∀ now2 : Int, now2 < now + e * 1000 - 60000 →
      getAccessToken w2 now2 (getAccessToken w now s).2
        = (.ok tok, logLookup (getAccessToken w now s).2 TOKEN_CACHE_KEY))
  ∧ (∀ now3 : Int, now + e * 1000 - 60000 ≤ now3 →
      envSet w2.clientId = true → envSet w2.clientSecret = true →
      (getAccessToken w2 now3 (getAccessToken w now s).2).2.requests
        = (getAccessToken w now s).2.requests
          ++ [⟨FATSECRET_TOKEN_URL, tokenRequestParams w2⟩]) := by
  have hval : tokenCacheValid s.cache now = false := by
    unfold tokenCacheValid
    rw [hmiss]
  have hrun : getAccessToken w now s =
      (.ok tok,
       ⟨⟨TOKEN_CACHE_KEY,
         jobjCons "access_token" tok (jobjCons "expires_in" (jnum (JNum.ofInt e))
           (jobjCons "expires_at" (jnum ⟨now + e * 1000 - 60000, 1⟩) jobjNil)),
         some ⟨now + e * 1000, 1⟩⟩ :: removeKey s.cache TOKEN_CACHE_KEY,
        s.lookups ++ [TOKEN_CACHE_KEY],
        s.requests ++ [⟨FATSECRET_TOKEN_URL, tokenRequestParams w⟩]⟩) := by
    rw [getAccessToken_miss w now s hval]
    unfold getAccessTokenFresh
    simp [hid, hsec, hresp, logRequest, logLookup, putCache, cacheResponse,
      objSpreadSet, objSetField, getFieldD, getField, lookupObj, toNumber,
      jsAdd, jsMul, jsSub, JNum.add, JNum.mul, JNum.sub, JNum.ofInt, objOf]
  refine ⟨by rw [hrun], ?_, ?_, ?_⟩
  · rw [hrun]
    refine ⟨⟨TOKEN_CACHE_KEY,
      jobjCons "access_token" tok (jobjCons "expires_in" (jnum (JNum.ofInt e))
        (jobjCons "expires_at" (jnum ⟨now + e * 1000 - 60000, 1⟩) jobjNil)),
      some ⟨now + e * 1000, 1⟩⟩, ?_, ?_, ?_⟩
    · simp [cacheFind]
    · simp [getFieldD, getField, lookupObj, JNum.ofInt]
    · simp [getFieldD, getField, lookupObj]
  · intro now2 h2
    rw [hrun]
    have hle : JNum.le (JNum.ofInt now2) ⟨now + e * 1000, 1⟩ = true := by
      simp only [JNum.le, JNum.ofInt]
      simp only [decide_eq_true_eq]
      omega
    have hlt : JNum.lt (JNum.ofInt now2) ⟨now + e * 1000 - 60000, 1⟩ = true := by
      simp only [JNum.lt, JNum.ofInt]
      simp only [decide_eq_true_eq]
      omega
    unfold getAccessToken
    simp [getCachedResponse, hle, truthy, getFieldD, getField, lookupObj,
      jsGT, toNumber, hlt, logLookup]
  · intro now3 h3 hid2 hsec2
    rw [hrun]
    have hlt3 : JNum.lt (JNum.ofInt now3) ⟨now + e * 1000 - 60000, 1⟩ = false := by
      simp only [JNum.lt, JNum.ofInt]
      simp only [decide_eq_false_iff_not]
      omega
    cases hfresh : JNum.le (JNum.ofInt now3) (⟨now + e * 1000, 1⟩ : JNum) with
    | false =>
        unfold getAccessToken getAccessTokenFresh
        cases hT : w2.tokenResp with
        | none =>
            simp [getCachedResponse, hfresh, hid2, hsec2, hT, logRequest, logLookup]
        | some r =>
            cases hr : r.ok <;>
              simp [getCachedResponse, hfresh, hid2, hsec2, hT, hr,
                logRequest, logLookup, putCache]
    | true =>
        unfold getAccessToken getAccessTokenFresh
        cases hT : w2.tokenResp with
        | none =>
            simp [getCachedResponse, hfresh, truthy, getFieldD, getField, lookupObj,
              jsGT, toNumber, hlt3, hid2, hsec2, hT, logRequest, logLookup]
        | some r =>
            cases hr : r.ok <;>
              simp [getCachedResponse, hfresh, truthy, getFieldD, getField, lookupObj,
                jsGT, toNumber, hlt3, hid2, hsec2, hT, hr, logRequest, logLookup, putCache]

/-- C5 witness: the spec instance, `expires_in = 3600`: a second call at
1000 milliseconds is served from the cache with no request, and a call at
3540000 milliseconds (3540 seconds) issues a new grant request. -/
theorem getAccessToken_token_caching_witness :
    (getAccessToken c5World 0 emptySt).1 = .ok (jstr "TOK")
  ∧ getAccessToken c5World 1000 (getAccessToken c5World 0 emptySt).2
      = (.ok (jstr "TOK"), logLookup (getAccessToken c5World 0 emptySt).2 TOKEN_CACHE_KEY)
  ∧ (getAccessToken c5World 3540000 (getAccessToken c5World 0 emptySt).2).2.requests
      = (getAccessToken c5World 0 emptySt).2.requests
        ++ [⟨FATSECRET_TOKEN_URL, tokenRequestParams c5World⟩] := by
  have h := getAccessToken_token_caching c5World c5World 0 emptySt 3600 (jstr "TOK") 200
    rfl (by decide) (by decide) rfl
  exact ⟨h.1, h.2.2.1 1000 (by decide), h.2.2.2 3540000 (by decide) (by decide) (by decide)⟩

theorem getAccessTokenFresh_cache_other (w : World) (now : Int) (s : St) (k : String)
    (h : k ≠ TOKEN_CACHE_KEY) :
    entriesFor (getAccessTokenFresh w now s).2.cache k = entriesFor s.cache k := by
  unfold getAccessTokenFresh
  cases hcred : (!envSet w.clientId || !envSet w.clientSecret) with
  | true => simp [hcred]
  | false =>
      cases hT : w.tokenResp with
      | none => simp [hcred, hT, logRequest]
      | some r =>
          cases hr : r.ok with
          | false => simp [hcred, hT, hr, logRequest]
          | true =>
              simp [hcred, hT, hr, logRequest, putCache,
                entriesFor_cacheResponse_ne _ TOKEN_CACHE_KEY k _ _ _ (Ne.symm h)]

theorem getAccessToken_cache_other (w : World) (now : Int) (s : St) (k : String)
    (h : k ≠ TOKEN_CACHE_KEY) :
    entriesFor (getAccessToken w now s).2.cache k = entriesFor s.cache k := by
  unfold getAccessToken
  cases hc : getCachedResponse s.cache TOKEN_CACHE_KEY now with
  | none =>
      simp only [cache_logLookup, hc]
      simpa using getAccessTokenFresh_cache_other w now (logLookup s TOKEN_CACHE_KEY) k h
  | some v =>
      cases htr : (truthy v && jsGT (getFieldD v "expires_at") (jnum (JNum.ofInt now))) with
      | true => simp [hc, htr]
      | false =>
          simp only [cache_logLookup, hc, htr]
          simpa using getAccessTokenFresh_cache_other w now (logLookup s TOKEN_CACHE_KEY) k h

theorem searchKeyOf_ne_token (q : String) : searchKeyOf q ≠ TOKEN_CACHE_KEY := by
  unfold searchKeyOf TOKEN_CACHE_KEY
  intro h
  have h2 := congrArg String.length h
  rw [String.length_append] at h2
  have e1 : String.length "fatsecret_search_" = 17 := by decide
  have e2 : String.length "fatsecret_token" = 15 := by decide
  omega

theorem nutritionKeyOf_ne_token (q : String) : nutritionKeyOf q ≠ TOKEN_CACHE_KEY := by
  unfold nutritionKeyOf TOKEN_CACHE_KEY
  intro h
  have h2 := congrArg String.length h
  rw [String.length_append] at h2
  have e1 : String.length "fatsecret_nutrition_" = 20 := by decide
  have e2 : String.length "fatsecret_token" = 15 := by decide
  omega

theorem searchFoods_miss (w : World) (now : Int) (q : String) (mr : JSValue) (s : St)
    (hmiss : cacheHitVal s.cache (searchKeyOf q) now = false) :
    searchFoods w now (jstr q) mr s
      = (match searchFoodsFresh w now (jstr q) mr (searchKeyOf q)
            (logLookup s (searchKeyOf q)) with
         | (.error _, s') => (.ok jarrNil, s')
         | r => r) := by
  unfold cacheHitVal at hmiss
  unfold searchFoods searchFoodsTry
  have hk : "fatsecret_search_" ++ trimStr (lowerStr q) = searchKeyOf q := rfl
  simp only [jsToLowerCase, cache_logLookup, hk]
  cases hc : getCachedResponse s.cache (searchKeyOf q) now with
  | none => simp [hc]
  | some v =>
      have hv : truthy v = false := by
        rw [hc] at hmiss
        simpa using hmiss
      simp [hc, hv]

/-- C8 counterexample: when the upstream answers success with
`foods.food` equal to the empty array, the guard (`!searchData.foods ||
!searchData.foods.food`) does not fire — an empty array is truthy — so
the empty result list IS cached under the query key, refuting "no cache
entry is written when the result is empty". -/
theorem searchFoods_caches_empty_array_result :
    (searchFoods c8World 0 (jstr "apple") (jnum (JNum.ofInt 3)) emptySt).1 = .ok jarrNil
  ∧ getCachedResponse
      (searchFoods c8World 0 (jstr "apple") (jnum (JNum.ofInt 3)) emptySt).2.cache
      (searchKeyOf "apple") 0 = some jarrNil :=
  ⟨rfl, rfl⟩

/-- C8 amended: on a cache miss, `searchFoods` caches exactly the results
whose envelope field was present (truthy) — including the empty array —
under the query key with TTL 86400 seconds; no entry is written under the
query key when the repeated field is absent or the upstream request
fails (and the result is then the empty list). -/
theorem searchFoods_caching (w : World) (now : Int) (q : String) (mr : JSValue)
    (mstr : String) (s : St)
    (hmiss : cacheHitVal s.cache (searchKeyOf q) now = false)
    (hmr : jsToStrMethod mr = .ok mstr) :
    (∀ resp foods tok, w.searchResp = some resp → resp.ok = true →
      searchExtract resp.body = .ok (some foods) →
      (getAccessToken w now (logLookup s (searchKeyOf q))).1 = .ok tok →
      searchFoods w now (jstr q) mr s
        = (.ok (arrOf foods),
           putCache
             (logRequest (getAccessToken w now (logLookup s (searchKeyOf q))).2
               (searchRequest q mstr))
             (searchKeyOf q) (arrOf foods) (jnum (JNum.ofInt 86400)) now))
  ∧ (∀ tok, (getAccessToken w now (logLookup s (searchKeyOf q))).1 = .ok tok →
      w.searchResp = none →
      (searchFoods w now (jstr q) mr s).1 = .ok jarrNil ∧
      entriesFor (searchFoods w now (jstr q) mr s).2.cache (searchKeyOf q)
        = entriesFor s.cache (searchKeyOf q))
  ∧ (∀ tok resp, (getAccessToken w now (logLookup s (searchKeyOf q))).1 = .ok tok →
      w.searchResp = some resp → resp.ok = false →
      (searchFoods w now (jstr q) mr s).1 = .ok jarrNil ∧
      entriesFor (searchFoods w now (jstr q) mr s).2.cache (searchKeyOf q)
        = entriesFor s.cache (searchKeyOf q))
  ∧ (∀ tok resp, (getAccessToken w now (logLookup s (searchKeyOf q))).1 = .ok tok →
      w.searchResp = some resp → resp.ok = true →
      searchExtract resp.body = .ok none →
      (searchFoods w now (jstr q) mr s).1 = .ok jarrNil ∧
      entriesFor (searchFoods w now (jstr q) mr s).2.cache (searchKeyOf q)
        = entriesFor s.cache (searchKeyOf q)) := by
  have hglobal := searchFoods_miss w now q mr s hmiss
  have hcother :
      entriesFor (getAccessToken w now (logLookup s (searchKeyOf q))).2.cache
        (searchKeyOf q) = entriesFor s.cache (searchKeyOf q) := by
    rw [getAccessToken_cache_other w now (logLookup s (searchKeyOf q)) (searchKeyOf q)
      (searchKeyOf_ne_token q)]
    rfl
  refine ⟨?_, ?_, ?_, ?_⟩
  · intro resp foods tok hresp hok hext htok
    have hpair : getAccessToken w now (logLookup s (searchKeyOf q))
        = (.ok tok, (getAccessToken w now (logLookup s (searchKeyOf q))).2) := by
      rw [← htok]
    rw [hglobal]
    unfold searchFoodsFresh
    rw [hpair, hmr, hresp]
    simp [hok, hext, jsToStr]
  · intro tok htok hresp
    have hpair : getAccessToken w now (logLookup s (searchKeyOf q))
        = (.ok tok, (getAccessToken w now (logLookup s (searchKeyOf q))).2) := by
      rw [← htok]
    rw [hglobal]
    unfold searchFoodsFresh
    rw [hpair, hmr, hresp]
    simp [hcother, logRequest]
  · intro tok resp htok hresp hok
    have hpair : getAccessToken w now (logLookup s (searchKeyOf q))
        = (.ok tok, (getAccessToken w now (logLookup s (searchKeyOf q))).2) := by
      rw [← htok]
    rw [hglobal]
    unfold searchFoodsFresh
    rw [hpair, hmr, hresp]
    simp [hok, hcother, logRequest]
  · intro tok resp htok hresp hok hext
    have hpair : getAccessToken w now (logLookup s (searchKeyOf q))
        = (.ok tok, (getAccessToken w now (logLookup s (searchKeyOf q))).2) := by
      rw [← htok]
    rw [hglobal]
    unfold searchFoodsFresh
    rw [hpair, hmr, hresp]
    simp [hok, hext, hcother, logRequest]

/-- C8 witness: the success case at a concrete non-empty envelope and
the absent-field case, in the same world as the counterexample but with
the respective search responses. -/
theorem searchFoods_caching_witness :
    searchFoods
        ⟨some "id", some "sec", c8World.tokenResp,
         some ⟨true, 200, wrapSearchBody (jarrCons (jobjCons "food_id" (jstr "1") jobjNil) jarrNil)⟩,
         none, none⟩ 0 (jstr "apple") (jnum (JNum.ofInt 3)) emptySt
      = (.ok (arrOf [jobjCons "food_id" (jstr "1") jobjNil]),
         putCache
           (logRequest
             (getAccessToken
               ⟨some "id", some "sec", c8World.tokenResp,
                some ⟨true, 200, wrapSearchBody (jarrCons (jobjCons "food_id" (jstr "1") jobjNil) jarrNil)⟩,
                none, none⟩ 0 (logLookup emptySt (searchKeyOf "apple"))).2
             (searchRequest "apple" "3"))
           (searchKeyOf "apple") (arrOf [jobjCons "food_id" (jstr "1") jobjNil])
           (jnum (JNum.ofInt 86400)) 0)
  ∧ (searchFoods
        ⟨some "id", some "sec", c8World.tokenResp,
         some ⟨true, 200, objOf []⟩, none, none⟩ 0 (jstr "apple")
        (jnum (JNum.ofInt 3)) emptySt).1 = .ok jarrNil
  ∧ entriesFor
      (searchFoods
        ⟨some "id", some "sec", c8World.tokenResp,
         some ⟨true, 200, objOf []⟩, none, none⟩ 0 (jstr "apple")
        (jnum (JNum.ofInt 3)) emptySt).2.cache (searchKeyOf "apple")
      = entriesFor emptySt.cache (searchKeyOf "apple") := by
  have hA := (searchFoods_caching
    ⟨some "id", some "sec", c8World.tokenResp,
     some ⟨true, 200, wrapSearchBody (jarrCons (jobjCons "food_id" (jstr "1") jobjNil) jarrNil)⟩,
     none, none⟩ 0 "apple" (jnum (JNum.ofInt 3)) "3" emptySt rfl rfl).1
    ⟨true, 200, wrapSearchBody (jarrCons (jobjCons "food_id" (jstr "1") jobjNil) jarrNil)⟩
    [jobjCons "food_id" (jstr "1") jobjNil] (jstr "TOK") rfl rfl (by rfl) (by rfl)
  have hB := (searchFoods_caching
    ⟨some "id", some "sec", c8World.tokenResp,
     some ⟨true, 200, objOf []⟩, none, none⟩ 0 "apple" (jnum (JNum.ofInt 3)) "3" emptySt
    rfl rfl).2.2.2 (jstr "TOK") ⟨true, 200, objOf []⟩ (by rfl) rfl rfl (by rfl)
  exact ⟨hA, hB.1, hB.2⟩

theorem searchFoods_netfail (w : World) (now : Int) (q : String) (mr : JSValue)
    (mstr : String) (s : St)
    (hmiss : cacheHitVal s.cache (searchKeyOf q) now = false)
    (hmr : jsToStrMethod mr = .ok mstr)
    (hresp : w.searchResp = none) (k : String) (hk : k ≠ TOKEN_CACHE_KEY) :
    (searchFoods w now (jstr q) mr s).1 = .ok jarrNil ∧
    entriesFor (searchFoods w now (jstr q) mr s).2.cache k = entriesFor s.cache k := by
  rw [searchFoods_miss w now q mr s hmiss]
  unfold searchFoodsFresh
  cases htok : getAccessToken w now (logLookup s (searchKeyOf q)) with
  | mk r s2 =>
      have hs2 : entriesFor s2.cache k = entriesFor s.cache k := by
        have h := getAccessToken_cache_other w now (logLookup s (searchKeyOf q)) k hk
        rw [htok] at h
        simpa using h
      cases r with
      | error e => simpa using hs2
      | ok tok =>
          rw [hmr]
          simp [hresp, logRequest, hs2]

/-- C7: `getNutritionFromFatSecret` is fail-open end to end — it always
returns a value, never an exception; and when the search upstream call
errors (a rejected fetch), it returns `null` and writes no cache entry
under the nutrition key of the label. -/
theorem getNutrition_fail_open :
    (∀ (w : World) (now : Int) (label : JSValue) (s : St),
      ∃ v, (getNutritionFromFatSecret w now label s).1 = .ok v)
  ∧ (∀ (w : World) (now : Int) (q : String), w.searchResp = none →
      (getNutritionFromFatSecret w now (jstr q) emptySt).1 = .ok jnull ∧
      entriesFor (getNutritionFromFatSecret w now (jstr q) emptySt).2.cache
        (nutritionKeyOf q) = []) := by
  constructor
  · intro w now label s
    cases hr : getNutritionTry w now label s with
    | mk r s2 =>
        cases r with
        | error e => exact ⟨jnull, by simp [getNutritionFromFatSecret, hr]⟩
        | ok v => exact ⟨v, by simp [getNutritionFromFatSecret, hr]⟩
  · intro w now q hresp
    by_cases hq : q = ""
    · subst hq
      simp [getNutritionFromFatSecret, getNutritionTry, truthy, entriesFor, emptySt]
    · have htr : truthy (jstr q) = true := by simp [truthy, hq]
      have hkey : "fatsecret_nutrition_" ++ trimStr (lowerStr q) = nutritionKeyOf q := rfl
      obtain ⟨h1, h2⟩ := searchFoods_netfail w now q (jnum (JNum.ofInt 3)) "3"
        (logLookup emptySt (nutritionKeyOf q)) rfl rfl hresp
        (nutritionKeyOf q) (nutritionKeyOf_ne_token q)
      unfold getNutritionFromFatSecret getNutritionTry getNutritionFresh
      simp only [htr, jsToLowerCase, hkey, cache_logLookup, Bool.not_true,
        Bool.false_eq_true, if_false]
      cases hsf : searchFoods w now (jstr q) (jnum (JNum.ofInt 3))
          (logLookup emptySt (nutritionKeyOf q)) with
      | mk r s2 =>
          rw [hsf] at h1 h2
          cases r with
          | error e => simp at h1
          | ok v =>
              have hv : v = jarrNil := by simpa using h1
              subst hv
              simp [getCachedResponse, emptySt, truthy, getFieldD, getField,
                jsTripleEqNum, JNum.eqv, JNum.ofInt]
              simpa [emptySt, entriesFor] using h2

/-- C7 witness: the spec instance `getNutritionFromFatSecret("kale")`
under a failing search upstream. -/
theorem getNutrition_fail_open_witness :
    (∃ v, (getNutritionFromFatSecret worldEmpty 0 (jstr "kale") emptySt).1 = .ok v)
  ∧ (getNutritionFromFatSecret worldEmpty 0 (jstr "kale") emptySt).1 = .ok jnull
  ∧ entriesFor (getNutritionFromFatSecret worldEmpty 0 (jstr "kale") emptySt).2.cache
      (nutritionKeyOf "kale") = [] :=
  ⟨getNutrition_fail_open.1 worldEmpty 0 (jstr "kale") emptySt,
   (getNutrition_fail_open.2 worldEmpty 0 "kale" rfl).1,
   (getNutrition_fail_open.2 worldEmpty 0 "kale" rfl).2⟩

theorem autocompleteSearch_miss (w : World) (now : Int) (e : String)
    (mr region : JSValue) (s : St)
    (hlen : 2 ≤ (trimStr e).length)
    (hmiss : cacheHitVal s.cache (autoKeyOf e mr region) now = false) :
    autocompleteSearch w now (jstr e) mr region s
      = (match autocompleteSearchFresh w now (jstr e) mr region (trimStr e)
            (autoKeyOf e mr region) (logLookup s (autoKeyOf e mr region)) with
         | (.error _, s') => (.ok jarrNil, s')
         | r => r) := by
  have he : e ≠ "" := by
    intro h
    rw [h] at hlen
    revert hlen
    decide
  have htr : truthy (jstr e) = true := by simp [truthy, he]
  have hnl : ¬ ((trimStr e).length < 2) := by omega
  have hkey : "fatsecret_autocomplete_" ++ trimStr (lowerStr e) ++ "_" ++ jsToStr mr
      ++ "_" ++ (if truthy region then jsToStr region else "default")
      = autoKeyOf e mr region := rfl
  unfold cacheHitVal at hmiss
  unfold autocompleteSearch autocompleteSearchTry
  simp only [htr, jsTrimMethod, jsToLowerCase, hnl, if_false, hkey,
    cache_logLookup, Bool.not_true, Bool.false_eq_true]
  cases hc : getCachedResponse s.cache (autoKeyOf e mr region) now with
  | none => simp [hc]
  | some v =>
      have hv : truthy v = false := by
        rw [hc] at hmiss
        simpa using hmiss
      simp [hc, hv]

/-- C10: the autocomplete cache key uses the lower-cased trimmed
expression while the request body carries the expression only trimmed
(case preserved): a first call on a cache miss logs a request whose
`expression` parameter is the trimmed original and stores the suggestion
list under the case-folded key; a second call within the TTL whose
expression differs only in letter case, with the same `maxResults` and
`region`, returns that cached list with only a cache lookup — no new
upstream request. -/
theorem autocomplete_case_insensitive_cache (w w2 : World) (now1 now2 : Int)
    (e1 e2 : String) (mr region : JSValue) (s : St) (tok : JSValue)
    (resp : FetchResponse) (suggs : List JSValue)
    (hcase : lowerStr e1 = lowerStr e2)
    (hlen1 : 2 ≤ (trimStr e1).length) (hlen2 : 2 ≤ (trimStr e2).length)
    (hmiss : cacheHitVal s.cache (autoKeyOf e1 mr region) now1 = false)
    (htok : (getAccessToken w now1 (logLookup s (autoKeyOf e1 mr region))).1 = .ok tok)
    (hresp : w.autoResp = some resp) (hok : resp.ok = true)
    (hext : autoExtract resp.body = .ok (some suggs))
    (hfresh : now2 ≤ now1 + 900 * 1000) :
    autocompleteSearch w now1 (jstr e1) mr region s
      = (.ok (arrOf suggs),
         putCache
           (logRequest (getAccessToken w now1 (logLookup s (autoKeyOf e1 mr region))).2
             (autoRequest (trimStr e1) mr region))
           (autoKeyOf e1 mr region) (arrOf suggs) (jnum (JNum.ofInt 900)) now1)
  ∧ (autoRequest (trimStr e1) mr region).params.get? 1 = some ("expression", trimStr e1)
  ∧ autocompleteSearch w2 now2 (jstr e2) mr region
      (autocompleteSearch w now1 (jstr e1) mr region s).2
      = (.ok (arrOf suggs),
         logLookup (autocompleteSearch w now1 (jstr e1) mr region s).2
           (autoKeyOf e1 mr region)) := by
  have hrun1 : autocompleteSearch w now1 (jstr e1) mr region s
      = (.ok (arrOf suggs),
         putCache
           (logRequest (getAccessToken w now1 (logLookup s (autoKeyOf e1 mr region))).2
             (autoRequest (trimStr e1) mr region))
           (autoKeyOf e1 mr region) (arrOf suggs) (jnum (JNum.ofInt 900)) now1) := by
    rw [autocompleteSearch_miss w now1 e1 mr region s hlen1 hmiss]
    unfold autocompleteSearchFresh
    have hpair : getAccessToken w now1 (logLookup s (autoKeyOf e1 mr region))
        = (.ok tok, (getAccessToken w now1 (logLookup s (autoKeyOf e1 mr region))).2) := by
      rw [← htok]
    rw [hpair, hresp]
    simp [hok, hext]
  refine ⟨hrun1, rfl, ?_⟩
  have he2 : e2 ≠ "" := by
    intro h
    rw [h] at hlen2
    revert hlen2
    decide
  have htr2 : truthy (jstr e2) = true := by simp [truthy, he2]
  have hnl2 : ¬ ((trimStr e2).length < 2) := by omega
  have hkey2 : "fatsecret_autocomplete_" ++ trimStr (lowerStr e2) ++ "_" ++ jsToStr mr
      ++ "_" ++ (if truthy region then jsToStr region else "default")
      = autoKeyOf e1 mr region := by
    unfold autoKeyOf
    rw [hcase]
  have hle2 : JNum.le (JNum.ofInt now2)
      ((JNum.ofInt now1).add ((JNum.ofInt 900).mul (JNum.ofInt 1000))) = true := by
    simp only [JNum.le, JNum.add, JNum.mul, JNum.ofInt, decide_eq_true_eq]
    omega
  have htsugg : truthy (arrOf suggs) = true := by
    cases suggs <;> simp [arrOf, truthy]
  rw [hrun1]
  unfold autocompleteSearch autocompleteSearchTry
  simp only [htr2, jsTrimMethod, jsToLowerCase, hnl2, if_false, hkey2,
    cache_logLookup, Bool.not_true, Bool.false_eq_true]
  simp [putCache, cacheResponse, getCachedResponse, toNumber, hle2, htsugg]

/-- C10 witness: `"Kale"` then `"kaLE"` with equal `maxResults` and
`region`; the second call is served from the cache of the first. -/
theorem autocomplete_case_insensitive_cache_witness :
    autocompleteSearch c10World 0 (jstr "Kale") (jnum (JNum.ofInt 4)) jnull emptySt
      = (.ok (arrOf [jstr "kale salad"]),
         putCache
           (logRequest
             (getAccessToken c10World 0
               (logLookup emptySt (autoKeyOf "Kale" (jnum (JNum.ofInt 4)) jnull))).2
             (autoRequest (trimStr "Kale") (jnum (JNum.ofInt 4)) jnull))
           (autoKeyOf "Kale" (jnum (JNum.ofInt 4)) jnull) (arrOf [jstr "kale salad"])
           (jnum (JNum.ofInt 900)) 0)
  ∧ (autoRequest (trimStr "Kale") (jnum (JNum.ofInt 4)) jnull).params.get? 1
      = some ("expression", trimStr "Kale")
  ∧ autocompleteSearch c10World 1000 (jstr "kaLE") (jnum (JNum.ofInt 4)) jnull
      (autocompleteSearch c10World 0 (jstr "Kale") (jnum (JNum.ofInt 4)) jnull emptySt).2
      = (.ok (arrOf [jstr "kale salad"]),
         logLookup
           (autocompleteSearch c10World 0 (jstr "Kale") (jnum (JNum.ofInt 4)) jnull emptySt).2
           (autoKeyOf "Kale" (jnum (JNum.ofInt 4)) jnull)) := by
  have h := autocomplete_case_insensitive_cache c10World c10World 0 1000 "Kale" "kaLE"
    (jnum (JNum.ofInt 4)) jnull emptySt (jstr "TOK")
    ⟨true, 200, wrapAutoBody (jstr "kale salad")⟩ [jstr "kale salad"]
    (by decide) (by decide) (by decide) rfl (by rfl) rfl rfl (by rfl) (by decide)
  exact ⟨h.1, h.2.1, h.2.2⟩
